import Mathlib

/-!
# Verification of the amortization engine and loan routes

Shallow embedding of the loan-management backend's amortization engine
(`app/services.py`) and of the relevant request handlers
(`app/routers/loans.py`).

Python `Decimal` values are modelled as exact rationals (`ℚ`).  The source
sets a 28-significant-digit context; every intermediate value appearing in
the concrete scenarios verified below is exactly representable within that
precision, so exact rational arithmetic coincides there with the decimal
arithmetic of the source.  `Decimal.quantize(TWOPLACES, ROUND_HALF_UP)` is
rounding to an integer number of cents with ties away from zero, embedded
as `to_money` below.
-/

namespace LoanEngine

/-- `to_money` (`services.py`): quantize to two fractional digits with
`ROUND_HALF_UP`, i.e. round to the nearest multiple of 1/100 with ties
away from zero. -/
def to_money (value : ℚ) : ℚ :=
  if 0 ≤ value then (⌊100 * value + 1/2⌋ : ℚ) / 100
  else -((⌊100 * (-value) + 1/2⌋ : ℚ) / 100)

/-- `LoanScheduleItem` (`schemas.py`): one emitted schedule row. -/
structure LoanScheduleItem where
  month : ℕ
  remaining_balance : ℚ
  monthly_payment : ℚ
  deriving DecidableEq, Repr

instance : Inhabited LoanScheduleItem := ⟨⟨0, 0, 0⟩⟩

/-- `LoanSummary` (`schemas.py`): the point-in-time summary. -/
structure LoanSummary where
  month : ℕ
  principal_balance : ℚ
  total_principal_paid : ℚ
  total_interest_paid : ℚ
  deriving DecidableEq, Repr

/-- `compute_monthly_payment` (`services.py`): the fixed monthly payment,
even split when the monthly rate is zero, standard annuity formula
otherwise, rounded to money. -/
def compute_monthly_payment (amount : ℚ) (annual_interest_rate_percent : ℚ)
    (term_months : ℕ) : ℚ :=
  let principal := amount
  let monthly_rate := annual_interest_rate_percent / 100 / 12
  let n : ℚ := term_months
  if monthly_rate = 0 then to_money (principal / n)
  else
    to_money (principal * monthly_rate * (1 + monthly_rate) ^ term_months /
      ((1 + monthly_rate) ^ term_months - 1))

/-- Loop body of the `for month in range(...)` loop of
`build_amortization_schedule`: the remaining balance after one more payment
(interest accrual, principal component, overshoot clamp). -/
def nextRemaining (monthly_rate monthly_payment remaining : ℚ) : ℚ :=
  let interest := if monthly_rate = 0 then 0 else remaining * monthly_rate
  let principal_component := monthly_payment - interest
  let principal_component :=
    if principal_component > remaining then remaining else principal_component
  remaining - principal_component

/-- The loop of `build_amortization_schedule`, one recursive step per month;
`fuel` months remain, the next emitted row is numbered `month`. -/
def buildGo (monthly_rate monthly_payment : ℚ) (remaining : ℚ) (month : ℕ) :
    ℕ → List LoanScheduleItem
  | 0 => []
  | fuel + 1 =>
    let remaining' := nextRemaining monthly_rate monthly_payment remaining
    { month := month
      remaining_balance := to_money (max remaining' 0)
      monthly_payment := to_money monthly_payment } ::
      buildGo monthly_rate monthly_payment remaining' (month + 1) fuel

/-- `build_amortization_schedule` (`services.py`). -/
def build_amortization_schedule (amount : ℚ) (annual_interest_rate_percent : ℚ)
    (term_months : ℕ) : List LoanScheduleItem :=
  let principal := amount
  let monthly_rate := annual_interest_rate_percent / 100 / 12
  let monthly_payment :=
    compute_monthly_payment principal annual_interest_rate_percent term_months
  buildGo monthly_rate monthly_payment principal 1 term_months

/-- The loop of `summarize_schedule_for_month` over `schedule[:month]`,
accumulating `(total_principal_paid, total_interest_paid, remaining)`.
The loop body never reads the list items, only their count. -/
def summarizeGo (monthly_rate monthly_payment : ℚ) :
    List LoanScheduleItem → ℚ × ℚ × ℚ → ℚ × ℚ × ℚ
  | [], s => s
  | _ :: rest, (total_principal_paid, total_interest_paid, remaining) =>
    let interest := if monthly_rate = 0 then 0 else remaining * monthly_rate
    let principal_component := monthly_payment - interest
    let principal_component :=
      if principal_component > remaining then remaining else principal_component
    summarizeGo monthly_rate monthly_payment rest
      (total_principal_paid + principal_component,
       total_interest_paid + interest,
       remaining - principal_component)

/-- `summarize_schedule_for_month` (`services.py`); the Python slice
`schedule[:month]` for a nonnegative `month` is `List.take month schedule`.
This is the non-raising path only: the source raises on an empty schedule
and on `month = 0`, which `summarize_schedule_for_month_checked` below
models. -/
def summarize_schedule_for_month (schedule : List LoanScheduleItem) (month : ℕ)
    (amount : ℚ) (annual_interest_rate_percent : ℚ) : LoanSummary :=
  let monthly_rate := annual_interest_rate_percent / 100 / 12
  let monthly_payment :=
    compute_monthly_payment amount annual_interest_rate_percent schedule.length
  let s := summarizeGo monthly_rate monthly_payment (schedule.take month)
    (0, 0, amount)
  { month := month
    principal_balance := to_money (max s.2.2 0)
    total_principal_paid := to_money s.1
    total_interest_paid := to_money s.2.1 }

/-- The exceptions `summarize_schedule_for_month` can raise: Python
`decimal` signals `DivisionByZero` inside `compute_monthly_payment` when
`len(schedule) = 0` (`principal / n` with `n = 0`, or the zero denominator
`(1+r)^0 - 1`; a zero numerator signals `InvalidOperation` instead, also
modelled here as the division error), and pydantic raises a
`ValidationError` when the `LoanSummary` is constructed with `month = 0`
(`LoanSummary.month` is `PositiveInt` in `schemas.py`). -/
inductive SummarizeError where
  | divisionByZero
  | validationError
  deriving DecidableEq, Repr

/-- `summarize_schedule_for_month` with its error paths: the source raises
`DivisionByZero` first (the payment is computed before the loop, so an
empty schedule fails regardless of `month`), and the pydantic
`PositiveInt` check on the constructed summary rejects `month = 0`.  On
every other input the call returns normally with the value of the
total model `summarize_schedule_for_month`, which embeds only the
non-raising path. -/
def summarize_schedule_for_month_checked (schedule : List LoanScheduleItem)
    (month : ℕ) (amount : ℚ) (annual_interest_rate_percent : ℚ) :
    Except SummarizeError LoanSummary :=
  if schedule.length = 0 then .error .divisionByZero
  else if month = 0 then .error .validationError
  else .ok (summarize_schedule_for_month schedule month amount
    annual_interest_rate_percent)

/-- The balance after `k` loop iterations, starting from `P`. -/
def remSeq (monthly_rate monthly_payment P : ℚ) : ℕ → ℚ
  | 0 => P
  | k + 1 => nextRemaining monthly_rate monthly_payment
      (remSeq monthly_rate monthly_payment P k)

/-- Total interest accrued over the first `k` loop iterations, starting from
balance `P`. -/
def tiSeq (monthly_rate monthly_payment P : ℚ) : ℕ → ℚ
  | 0 => 0
  | k + 1 => (if monthly_rate = 0 then 0 else P * monthly_rate) +
      tiSeq monthly_rate monthly_payment
        (nextRemaining monthly_rate monthly_payment P) k

/-- `geomSum r k = 1 + (1+r) + ... + (1+r)^(k-1)`, recursively. -/
def geomSum (r : ℚ) : ℕ → ℚ
  | 0 => 0
  | k + 1 => geomSum r k * (1 + r) + 1

/-- The exact annuity payment: the unique per-month payment that, without
any rounding, retires `A` in exactly `n` months at monthly rate `r`. -/
def exactPayment (A r : ℚ) (n : ℕ) : ℚ :=
  A * (1 + r) ^ n / geomSum r n

/-- Balance after `k` months of paying the exact payment `p` with no
rounding and no clamp. -/
def eSeq (A r p : ℚ) (k : ℕ) : ℚ :=
  A * (1 + r) ^ k - p * geomSum r k

end LoanEngine

namespace LoanRoutes

/-!
The request-handling layer (`app/routers/loans.py`).  The database session
is modelled as an explicit value holding the `users`, `loans` and
`loan_shares` tables; a `LoanShare` row is the pair
`(loan_id, user_id)`.  SQLAlchemy `query(...).filter(...).first()` is
`List.find?`; `db.add` plus `db.commit` on a share is appending the row.
The stored float amount and the `Decimal(str(...))` conversion are
modelled as the exact rational the loan was stored with.  An
`HTTPException` result models a raised `fastapi.HTTPException`.
-/

structure User where
  id : ℕ
  email : String
  deriving DecidableEq, Repr

structure Loan where
  id : ℕ
  owner_id : ℕ
  amount : ℚ
  annual_interest_rate : ℚ
  term_months : ℕ
  deriving DecidableEq, Repr

structure HTTPException where
  status_code : ℕ
  detail : String
  deriving DecidableEq, Repr

structure Db where
  users : List User
  loans : List Loan
  shares : List (ℕ × ℕ)
  deriving Repr

/-- `assert_can_access_loan` (`loans.py`): owners pass, then a share row is
looked up; no row means 404. -/
def assert_can_access_loan (loan : Loan) (user : User) (db : Db) :
    Except HTTPException Unit :=
  if loan.owner_id = user.id then .ok ()
  else
    match db.shares.find? (fun s => s.1 == loan.id && s.2 == user.id) with
    | some _ => .ok ()
    | none => .error ⟨404, "Loan not found"⟩

/-- `get_summary` (`loans.py`): 404 for a missing loan, access check, the
month bound check (Python `month > loan.term_months`), then the engine. -/
def get_summary (loan_id : ℕ) (month : ℕ) (current_user : User) (db : Db) :
    Except HTTPException LoanEngine.LoanSummary :=
  match db.loans.find? (fun l => l.id == loan_id) with
  | none => .error ⟨404, "Loan not found"⟩
  | some loan =>
    match assert_can_access_loan loan current_user db with
    | .error e => .error e
    | .ok _ =>
      if loan.term_months < month then
        .error ⟨400, "Month exceeds loan term"⟩
      else
        .ok (LoanEngine.summarize_schedule_for_month
          (LoanEngine.build_amortization_schedule loan.amount
            loan.annual_interest_rate loan.term_months)
          month loan.amount loan.annual_interest_rate)

/-- `share_loan` (`loans.py`): returns the response together with the
`loan_shares` table after the call. -/
def share_loan (loan_id : ℕ) (payload_email : String) (current_user : User)
    (db : Db) : Except HTTPException Unit × List (ℕ × ℕ) :=
  match db.loans.find? (fun l => l.id == loan_id) with
  | none => (.error ⟨404, "Loan not found"⟩, db.shares)
  | some loan =>
    if loan.owner_id ≠ current_user.id then
      (.error ⟨403, "Only the owner can share this loan"⟩, db.shares)
    else
      match db.users.find? (fun u => u.email == payload_email) with
      | none => (.error ⟨404, "Target user not found"⟩, db.shares)
      | some target_user =>
        if target_user.id = current_user.id then
          (.error ⟨400, "Cannot share loan with yourself"⟩, db.shares)
        else
          match db.shares.find?
              (fun s => s.1 == loan.id && s.2 == target_user.id) with
          | some _ => (.ok (), db.shares)
          | none => (.ok (), db.shares ++ [(loan.id, target_user.id)])

end LoanRoutes

namespace Claims

/-- Sample owner used by the route witnesses. -/
def c8User : LoanRoutes.User := ⟨1, "owner@example.com"⟩

/-- Sample loan used by the route witnesses. -/
def c8Loan : LoanRoutes.Loan := ⟨1, 1, 1000, 12, 24⟩

/-- Sample database used by the C8 witness. -/
def c8Db : LoanRoutes.Db := ⟨[c8User], [c8Loan], []⟩

/-- Sample second user used by the C10 witness. -/
def c10Friend : LoanRoutes.User := ⟨2, "friend@example.com"⟩

/-- Sample database used by the C10 witness: the loan is already shared
with the friend. -/
def c10Db : LoanRoutes.Db := ⟨[c8User, c10Friend], [c8Loan], [(1, 2)]⟩

end Claims

namespace LoanEngine

/-! ## Basic facts about `to_money` (rounding to cents, half up) -/

theorem to_money_of_nonneg (x : ℚ) (hx : 0 ≤ x) :
    to_money x = (⌊100 * x + 1/2⌋ : ℚ) / 100 := by
  simp [to_money, hx]

theorem to_money_nonneg (x : ℚ) (hx : 0 ≤ x) : 0 ≤ to_money x := by
  rw [to_money_of_nonneg x hx]
  have h : (0:ℤ) ≤ ⌊100 * x + 1/2⌋ := by
    apply Int.le_floor.mpr
    push_cast
    linarith
  have h' : (0:ℚ) ≤ (⌊100 * x + 1/2⌋ : ℚ) := by exact_mod_cast h
  linarith

theorem to_money_mono (x y : ℚ) (hx : 0 ≤ x) (hxy : x ≤ y) :
    to_money x ≤ to_money y := by
  rw [to_money_of_nonneg x hx, to_money_of_nonneg y (hx.trans hxy)]
  have h : (⌊100 * x + 1/2⌋ : ℤ) ≤ ⌊100 * y + 1/2⌋ := by
    apply Int.floor_mono
    linarith
  have h' : ((⌊100 * x + 1/2⌋ : ℤ) : ℚ) ≤ ((⌊100 * y + 1/2⌋ : ℤ) : ℚ) := by
    exact_mod_cast h
  linarith

theorem to_money_zero : to_money 0 = 0 := by
  rw [to_money_of_nonneg 0 le_rfl]
  norm_num

/-- `to_money` always lands on the cent grid. -/
theorem to_money_grid (x : ℚ) : ∃ m : ℤ, to_money x = (m : ℚ) / 100 := by
  unfold to_money
  split
  · exact ⟨⌊100 * x + 1/2⌋, rfl⟩
  · exact ⟨-⌊100 * (-x) + 1/2⌋, by push_cast; ring⟩

/-- A nonnegative value already on the cent grid is fixed by `to_money`. -/
theorem to_money_eq_self (x : ℚ) (hx : 0 ≤ x) (m : ℤ) (hm : x = (m : ℚ) / 100) :
    to_money x = x := by
  rw [to_money_of_nonneg x hx, hm]
  have h100 : 100 * ((m : ℚ) / 100) + 1/2 = (m : ℚ) + 1/2 := by ring
  rw [h100]
  have hfloor : ⌊(m : ℚ) + 1/2⌋ = m := by
    rw [add_comm, Int.floor_add_int]
    norm_num
  rw [hfloor]

/-! ## The remaining-balance recurrence shared by the builder and the
projector -/

/-- Closed form of one loop step: the clamp makes the new balance
`max (remaining * (1 + r) - payment) 0`. -/
theorem nextRemaining_eq (r p rem : ℚ) :
    nextRemaining r p rem = max (rem * (1 + r) - p) 0 := by
  simp only [nextRemaining]
  split_ifs with h1 h2 h3
  · subst h1
    have h : rem * (1 + 0) - p ≤ 0 := by linarith
    rw [max_eq_right h]
    ring
  · subst h1
    have h : 0 ≤ rem * (1 + 0) - p := by linarith
    rw [max_eq_left h]
    ring
  · have h : rem * (1 + r) - p ≤ 0 := by nlinarith
    rw [max_eq_right h]
    ring
  · have h : 0 ≤ rem * (1 + r) - p := by nlinarith
    rw [max_eq_left h]
    ring

theorem remSeq_nonneg (r p P : ℚ) (hP : 0 ≤ P) : ∀ k, 0 ≤ remSeq r p P k
  | 0 => hP
  | k + 1 => by
    rw [remSeq, nextRemaining_eq]
    exact le_max_right _ _

theorem remSeq_shift (r p P : ℚ) :
    ∀ k, remSeq r p (nextRemaining r p P) k = remSeq r p P (k + 1)
  | 0 => rfl
  | k + 1 => by
    rw [remSeq, remSeq_shift r p P k]
    rfl

theorem remSeq_le_init (r p P : ℚ) (hr : 0 ≤ r) (hP : 0 ≤ P)
    (hp : P * r ≤ p) : ∀ k, remSeq r p P k ≤ P
  | 0 => le_rfl
  | k + 1 => by
    rw [remSeq, nextRemaining_eq]
    have h1 : remSeq r p P k ≤ P := remSeq_le_init r p P hr hP hp k
    have h2 : 0 ≤ remSeq r p P k := remSeq_nonneg r p P hP k
    apply max_le _ hP
    nlinarith [mul_le_mul_of_nonneg_right h1 hr]

theorem remSeq_succ_le (r p P : ℚ) (hr : 0 ≤ r) (hP : 0 ≤ P)
    (hp : P * r ≤ p) (k : ℕ) : remSeq r p P (k + 1) ≤ remSeq r p P k := by
  rw [remSeq, nextRemaining_eq]
  have h1 : remSeq r p P k ≤ P := remSeq_le_init r p P hr hP hp k
  have h2 : 0 ≤ remSeq r p P k := remSeq_nonneg r p P hP k
  apply max_le _ h2
  nlinarith [mul_le_mul_of_nonneg_right h1 hr]

theorem remSeq_antitone (r p P : ℚ) (hr : 0 ≤ r) (hP : 0 ≤ P)
    (hp : P * r ≤ p) {j k : ℕ} (hjk : j ≤ k) :
    remSeq r p P k ≤ remSeq r p P j := by
  induction k with
  | zero =>
    have hj : j = 0 := Nat.le_zero.mp hjk
    simp [hj]
  | succ k ih =>
    rcases Nat.lt_or_ge j (k + 1) with h | h
    · exact (remSeq_succ_le r p P hr hP hp k).trans
        (ih (Nat.lt_succ_iff.mp h))
    · have hj : j = k + 1 := le_antisymm hjk h
      simp [hj]

/-! ## What the builder emits -/

theorem buildGo_length (r p : ℚ) :
    ∀ (fuel : ℕ) (rem : ℚ) (m : ℕ), (buildGo r p rem m fuel).length = fuel
  | 0, _, _ => rfl
  | fuel + 1, rem, m => by
    rw [buildGo]
    simp [buildGo_length r p fuel]

theorem build_schedule_length (A rate : ℚ) (n : ℕ) :
    (build_amortization_schedule A rate n).length = n :=
  buildGo_length _ _ n A 1

theorem buildGo_getD (r p : ℚ) :
    ∀ (fuel : ℕ) (rem : ℚ) (m i : ℕ), i < fuel →
      (buildGo r p rem m fuel).getD i default =
        { month := m + i
          remaining_balance := to_money (max (remSeq r p rem (i + 1)) 0)
          monthly_payment := to_money p }
  | 0, _, _, i, hi => absurd hi (Nat.not_lt_zero i)
  | fuel + 1, rem, m, 0, _ => by
    rw [buildGo]
    simp [remSeq]
  | fuel + 1, rem, m, i + 1, hi => by
    rw [buildGo]
    have ih := buildGo_getD r p fuel (nextRemaining r p rem) (m + 1) i
      (Nat.lt_of_succ_lt_succ hi)
    simp only [List.getD_cons_succ]
    rw [ih, remSeq_shift]
    congr 1
    omega

/-- Row `i` of the schedule (0-indexed): month `i + 1`, the rounded clamped
balance after `i + 1` payments, and the constant rounded payment. -/
theorem build_schedule_getD (A rate : ℚ) (n i : ℕ) (hi : i < n) :
    (build_amortization_schedule A rate n).getD i default =
      { month := i + 1
        remaining_balance :=
          to_money (max (remSeq (rate / 100 / 12)
            (compute_monthly_payment A rate n) A (i + 1)) 0)
        monthly_payment := to_money (compute_monthly_payment A rate n) } := by
  rw [build_amortization_schedule]
  rw [buildGo_getD _ _ n A 1 i hi]
  congr 1
  omega

/-! ## What the projector accumulates -/

theorem tiSeq_nonneg (r p : ℚ) (hr : 0 ≤ r) :
    ∀ (k : ℕ) (P : ℚ), 0 ≤ P → 0 ≤ tiSeq r p P k
  | 0, _, _ => le_rfl
  | k + 1, P, hP => by
    rw [tiSeq]
    have h1 : 0 ≤ nextRemaining r p P := by
      rw [nextRemaining_eq]; exact le_max_right _ _
    have h2 : 0 ≤ tiSeq r p (nextRemaining r p P) k := tiSeq_nonneg r p hr k _ h1
    have h3 : (0:ℚ) ≤ if r = 0 then 0 else P * r := by
      split
      · exact le_rfl
      · exact mul_nonneg hP hr
    linarith

theorem tiSeq_succ_le (r p : ℚ) (hr : 0 ≤ r) :
    ∀ (k : ℕ) (P : ℚ), 0 ≤ P → tiSeq r p P k ≤ tiSeq r p P (k + 1)
  | 0, P, hP => by
    rw [tiSeq]
    have h3 : (0:ℚ) ≤ if r = 0 then 0 else P * r := by
      split
      · exact le_rfl
      · exact mul_nonneg hP hr
    simp [tiSeq]
    linarith [h3]
  | k + 1, P, hP => by
    rw [tiSeq, tiSeq]
    have h1 : 0 ≤ nextRemaining r p P := by
      rw [nextRemaining_eq]; exact le_max_right _ _
    have := tiSeq_succ_le r p hr k (nextRemaining r p P) h1
    linarith

theorem tiSeq_mono (r p : ℚ) (hr : 0 ≤ r) (P : ℚ) (hP : 0 ≤ P)
    {j k : ℕ} (hjk : j ≤ k) : tiSeq r p P j ≤ tiSeq r p P k := by
  induction k with
  | zero =>
    have hj : j = 0 := Nat.le_zero.mp hjk
    simp [hj]
  | succ k ih =>
    rcases Nat.lt_or_ge j (k + 1) with h | h
    · exact (ih (Nat.lt_succ_iff.mp h)).trans (tiSeq_succ_le r p hr k P hP)
    · have hj : j = k + 1 := le_antisymm hjk h
      simp [hj]

/-- One step of the projector loop, rephrased through `nextRemaining`: the
loop body is textually the same interest/principal-component/clamp block as
the builder. -/
theorem summarizeGo_cons (r p : ℚ) (x : LoanScheduleItem)
    (l : List LoanScheduleItem) (tp ti rem : ℚ) :
    summarizeGo r p (x :: l) (tp, ti, rem) =
      summarizeGo r p l
        (tp + (rem - nextRemaining r p rem),
         ti + (if r = 0 then 0 else rem * r),
         nextRemaining r p rem) := by
  simp only [summarizeGo, nextRemaining]
  congr 1
  have h : ∀ q : ℚ, rem - (rem - q) = q := fun q => by ring
  rw [h]

theorem summarizeGo_rem (r p : ℚ) :
    ∀ (l : List LoanScheduleItem) (tp ti rem : ℚ),
      (summarizeGo r p l (tp, ti, rem)).2.2 = remSeq r p rem l.length
  | [], tp, ti, rem => by simp [summarizeGo, remSeq]
  | x :: l, tp, ti, rem => by
    rw [summarizeGo_cons, summarizeGo_rem r p l, List.length_cons,
      remSeq_shift]

theorem summarizeGo_tp (r p : ℚ) :
    ∀ (l : List LoanScheduleItem) (tp ti rem : ℚ),
      (summarizeGo r p l (tp, ti, rem)).1 =
        tp + (rem - remSeq r p rem l.length)
  | [], tp, ti, rem => by simp [summarizeGo, remSeq]
  | x :: l, tp, ti, rem => by
    rw [summarizeGo_cons, summarizeGo_tp r p l, List.length_cons,
      remSeq_shift]
    ring

theorem summarizeGo_ti (r p : ℚ) :
    ∀ (l : List LoanScheduleItem) (tp ti rem : ℚ),
      (summarizeGo r p l (tp, ti, rem)).2.1 = ti + tiSeq r p rem l.length
  | [], tp, ti, rem => by simp [summarizeGo, tiSeq]
  | x :: l, tp, ti, rem => by
    rw [summarizeGo_cons, summarizeGo_ti r p l, List.length_cons, tiSeq]
    ring

/-- The summary, in closed form: every money field is a function of
`min month schedule.length` steps of the shared recurrence, with the same
payment the builder uses when the schedule was built for the same terms. -/
theorem summarize_eq (sched : List LoanScheduleItem) (month : ℕ)
    (A rate : ℚ) :
    summarize_schedule_for_month sched month A rate =
      { month := month
        principal_balance := to_money (max (remSeq (rate / 100 / 12)
          (compute_monthly_payment A rate sched.length) A
          (min month sched.length)) 0)
        total_principal_paid := to_money (A - remSeq (rate / 100 / 12)
          (compute_monthly_payment A rate sched.length) A
          (min month sched.length))
        total_interest_paid := to_money (tiSeq (rate / 100 / 12)
          (compute_monthly_payment A rate sched.length) A
          (min month sched.length)) } := by
  simp only [summarize_schedule_for_month]
  rw [summarizeGo_rem, summarizeGo_tp, summarizeGo_ti]
  simp [List.length_take]

/-! ## The exact (unrounded) annuity payment and the terminal payoff -/

theorem geomSum_mul (r : ℚ) : ∀ k : ℕ, geomSum r k * r = (1 + r) ^ k - 1
  | 0 => by simp [geomSum]
  | k + 1 => by
    rw [geomSum, pow_succ]
    have h := geomSum_mul r k
    linear_combination (1 + r) * h

theorem geomSum_nonneg (r : ℚ) (hr : 0 ≤ r) : ∀ k : ℕ, 0 ≤ geomSum r k
  | 0 => le_rfl
  | k + 1 => by
    rw [geomSum]
    have h := geomSum_nonneg r hr k
    nlinarith

theorem geomSum_pos (r : ℚ) (hr : 0 ≤ r) (k : ℕ) (hk : 1 ≤ k) :
    0 < geomSum r k := by
  obtain ⟨j, rfl⟩ := Nat.exists_eq_add_of_le hk
  rw [Nat.add_comm, geomSum]
  have h := geomSum_nonneg r hr j
  nlinarith

theorem geomSum_zero_rate : ∀ k : ℕ, geomSum 0 k = k
  | 0 => rfl
  | k + 1 => by
    rw [geomSum, geomSum_zero_rate k]
    push_cast
    ring

theorem exactPayment_nonneg (A r : ℚ) (n : ℕ) (hA : 0 ≤ A) (hr : 0 ≤ r) :
    0 ≤ exactPayment A r n := by
  unfold exactPayment
  apply div_nonneg (mul_nonneg hA (pow_nonneg (by linarith) n))
    (geomSum_nonneg r hr n)

/-- For a nonzero rate the exact payment is the usual annuity formula, the
one in `compute_monthly_payment`. -/
theorem exactPayment_eq_formula (A r : ℚ) (n : ℕ) (hr : 0 < r)
    (hn : 1 ≤ n) :
    exactPayment A r n = A * r * (1 + r) ^ n / ((1 + r) ^ n - 1) := by
  have hg : geomSum r n * r = (1 + r) ^ n - 1 := geomSum_mul r n
  have hgpos : 0 < geomSum r n := geomSum_pos r hr.le n hn
  rw [exactPayment, ← hg]
  rw [div_eq_div_iff (ne_of_gt hgpos) (by positivity)]
  ring

/-- For rate zero the exact payment is the even split `A / n`. -/
theorem exactPayment_zero_rate (A : ℚ) (n : ℕ) :
    exactPayment A 0 n = A / n := by
  rw [exactPayment, geomSum_zero_rate]
  norm_num

theorem eSeq_zero (A r p : ℚ) : eSeq A r p 0 = A := by
  simp [eSeq, geomSum]

theorem eSeq_succ (A r p : ℚ) (k : ℕ) :
    eSeq A r p (k + 1) = eSeq A r p k * (1 + r) - p := by
  simp only [eSeq, geomSum, pow_succ]
  ring

/-- Paying the exact payment retires the balance exactly at month `n`. -/
theorem eSeq_final (A r : ℚ) (n : ℕ) (hg : geomSum r n ≠ 0) :
    eSeq A r (exactPayment A r n) n = 0 := by
  rw [eSeq, exactPayment, div_mul_cancel₀ _ hg]
  ring

/-- The exact balance stays nonnegative through month `n` (backward
induction from the terminal zero). -/
theorem eSeq_nonneg (A r p : ℚ) (n : ℕ) (hr : 0 ≤ r) (hp : 0 ≤ p)
    (hfin : eSeq A r p n = 0) : ∀ k, k ≤ n → 0 ≤ eSeq A r p k := by
  have key : ∀ j, j ≤ n → 0 ≤ eSeq A r p (n - j) := by
    intro j
    induction j with
    | zero => intro _; simpa using hfin.ge
    | succ j ih =>
      intro hj
      have hj' : j ≤ n := Nat.le_of_succ_le hj
      have hstep : eSeq A r p (n - (j + 1)) * (1 + r) - p =
          eSeq A r p (n - j) := by
        rw [← eSeq_succ]
        congr 1
        omega
      have h1 : 0 ≤ eSeq A r p (n - j) := ih hj'
      nlinarith [hstep]
  intro k hk
  have h := key (n - k) (Nat.sub_le n k)
  have hnk : n - (n - k) = k := Nat.sub_sub_self hk
  rwa [hnk] at h

/-- If the actual (rounded) payment is at least the exact payment, the
clamped balance stays below the exact balance through month `n`. -/
theorem remSeq_le_eSeq (A r pay : ℚ) (n : ℕ) (hr : 0 ≤ r)
    (hpay : exactPayment A r n ≤ pay)
    (hnn : ∀ k, k ≤ n → 0 ≤ eSeq A r (exactPayment A r n) k) :
    ∀ k, k ≤ n → remSeq r pay A k ≤ eSeq A r (exactPayment A r n) k := by
  intro k
  induction k with
  | zero => intro _; rw [eSeq_zero]; exact le_rfl
  | succ k ih =>
    intro hk
    have hk' : k ≤ n := Nat.le_of_succ_le hk
    have h1 := ih hk'
    rw [remSeq, nextRemaining_eq, eSeq_succ]
    apply max_le
    · have h2 : remSeq r pay A k * (1 + r) ≤
          eSeq A r (exactPayment A r n) k * (1 + r) :=
        mul_le_mul_of_nonneg_right h1 (by linarith)
      linarith
    · have h3 := hnn (k + 1) hk
      rw [eSeq_succ] at h3
      linarith

/-- Terminal payoff of the clamped recurrence: if the rounded payment
covers the exact payment, the balance is exactly zero after `n` months. -/
theorem remSeq_terminal_zero (A rate : ℚ) (n : ℕ) (hA : 0 ≤ A)
    (hrate : 0 ≤ rate) (hn : 1 ≤ n)
    (hpay : exactPayment A (rate / 100 / 12) n ≤
      compute_monthly_payment A rate n) :
    remSeq (rate / 100 / 12) (compute_monthly_payment A rate n) A n = 0 := by
  have hr : 0 ≤ rate / 100 / 12 := by positivity
  have hg : geomSum (rate / 100 / 12) n ≠ 0 :=
    ne_of_gt (geomSum_pos _ hr n hn)
  have hfin := eSeq_final A (rate / 100 / 12) n hg
  have hnn := eSeq_nonneg A (rate / 100 / 12) (exactPayment A (rate / 100 / 12) n)
    n hr (exactPayment_nonneg A _ n hA hr) hfin
  have hle := remSeq_le_eSeq A (rate / 100 / 12)
    (compute_monthly_payment A rate n) n hr hpay hnn n le_rfl
  rw [hfin] at hle
  exact le_antisymm hle (remSeq_nonneg _ _ A hA n)

/-! ## Zero-rate closed form -/

theorem payment_zero_rate (A : ℚ) (n : ℕ) :
    compute_monthly_payment A 0 n = to_money (A / n) := by
  simp [compute_monthly_payment]

theorem remSeq_zero_rate (p A : ℚ) (hp : 0 ≤ p) (hA : 0 ≤ A) :
    ∀ k : ℕ, remSeq 0 p A k = max (A - k * p) 0
  | 0 => by simp [remSeq, max_eq_left hA]
  | k + 1 => by
    rw [remSeq, nextRemaining_eq, remSeq_zero_rate p A hp hA k]
    have hcast : ((k + 1 : ℕ) : ℚ) = (k : ℚ) + 1 := by push_cast; ring
    rw [hcast]
    rcases le_or_lt (A - (k : ℚ) * p) 0 with h | h
    · rw [max_eq_right h]
      have e1 : (0:ℚ) * (1 + 0) - p = -p := by ring
      rw [e1, max_eq_right (by linarith : (-p : ℚ) ≤ 0)]
      have h2 : A - ((k : ℚ) + 1) * p ≤ 0 := by nlinarith
      rw [max_eq_right h2]
    · rw [max_eq_left h.le]
      have e2 : (A - (k : ℚ) * p) * (1 + 0) - p = A - ((k : ℚ) + 1) * p := by
        ring
      rw [e2]

end LoanEngine

namespace LoanRoutes

theorem find?_append_singleton {α : Type} (p : α → Bool) (l : List α)
    (e : α) (hl : l.find? p = none) (he : p e = true) :
    (l ++ [e]).find? p = some e := by
  induction l with
  | nil => simp [List.find?, he]
  | cons a l ih =>
    rw [List.find?_cons] at hl
    rcases h : p a with hf | ht
    · rw [h] at hl
      simp only [List.cons_append, List.find?_cons, h]
      exact ih hl
    · rw [h] at hl
      simp at hl

/-- A second identical `share_loan` call, run on the share table produced
by the first, returns the same response and leaves the table unchanged. -/
theorem share_loan_idem (db : Db) (loan_id : ℕ) (email : String)
    (u : User) :
    share_loan loan_id email u
        { db with shares := (share_loan loan_id email u db).2 } =
      share_loan loan_id email u db := by
  cases hl : db.loans.find? (fun l => l.id == loan_id) with
  | none => simp [share_loan, hl]
  | some loan =>
    by_cases ho : loan.owner_id ≠ u.id
    · simp [share_loan, hl, ho]
    · cases hu : db.users.find? (fun x => x.email == email) with
      | none => simp [share_loan, hl, ho, hu]
      | some target =>
        by_cases hself : target.id = u.id
        · simp [share_loan, hl, ho, hu, hself]
        · cases hs : db.shares.find?
              (fun s => s.1 == loan.id && s.2 == target.id) with
          | some sh => simp [share_loan, hl, ho, hu, hself, hs]
          | none =>
            have happ : (db.shares ++ [(loan.id, target.id)]).find?
                (fun s => s.1 == loan.id && s.2 == target.id) =
                some (loan.id, target.id) :=
              find?_append_singleton _ _ _ hs (by simp)
            simp [share_loan, hl, ho, hu, hself, hs, happ]

end LoanRoutes

namespace Claims

open LoanEngine

/-- C1 counterexample: for the valid terms principal 1.00, rate 0, term 3
(principal positive, rate nonnegative, term at least 1), the last schedule
entry has remaining_balance 0.01, not 0.00: the even split 1.00/3 rounds
the payment down to 0.33 and three such payments retire only 0.99. -/
theorem C1_counterexample :
    (0:ℚ) < 1 ∧ (0:ℚ) ≤ 0 ∧ (1:ℕ) ≤ 3 ∧
    ((build_amortization_schedule 1 0 3).getD (3 - 1) default).remaining_balance
      ≠ 0 := by
  refine ⟨by norm_num, le_rfl, by norm_num, ?_⟩
  norm_num [build_amortization_schedule, buildGo, nextRemaining,
    compute_monthly_payment, to_money]

/-- C1 (amended): the last schedule entry has remaining_balance exactly
0.00 provided the rounded monthly payment is at least the exact
(unrounded) payment value; when rounding moves the payment below the exact
value the final balance can stay positive. -/
theorem C1_amended_terminal_payoff (A rate : ℚ) (n : ℕ)
    (hA : 0 ≤ A) (hrate : 0 ≤ rate) (hn : 1 ≤ n)
    (hpay : exactPayment A (rate / 100 / 12) n ≤
      compute_monthly_payment A rate n) :
    ((build_amortization_schedule A rate n).getD (n - 1)
      default).remaining_balance = 0 := by
  have hlt : n - 1 < n := by omega
  rw [build_schedule_getD A rate n (n - 1) hlt]
  show to_money (max (remSeq (rate / 100 / 12)
    (compute_monthly_payment A rate n) A (n - 1 + 1)) 0) = 0
  have hsz : n - 1 + 1 = n := by omega
  rw [hsz, remSeq_terminal_zero A rate n hA hrate hn hpay, max_self]
  exact to_money_zero

/-- C1 witness: principal 100.00, rate 0, term 4; the rounded payment
25.00 equals the exact even split, so the final balance is 0.00. -/
theorem C1_witness :
    (0:ℚ) ≤ 100 ∧ (0:ℚ) ≤ 0 ∧ (1:ℕ) ≤ 4 ∧
    exactPayment 100 (0 / 100 / 12) 4 ≤ compute_monthly_payment 100 0 4 ∧
    ((build_amortization_schedule 100 0 4).getD (4 - 1)
      default).remaining_balance = 0 := by
  have hpay : exactPayment 100 ((0:ℚ) / 100 / 12) 4 ≤
      compute_monthly_payment 100 0 4 := by
    norm_num [exactPayment, geomSum_zero_rate, compute_monthly_payment,
      to_money]
  exact ⟨by norm_num, le_rfl, by norm_num, hpay,
    C1_amended_terminal_payoff 100 0 4 (by norm_num) le_rfl (by norm_num)
      hpay⟩

/-- C2: for every terms and every month between 1 and the term, the
summary principal_balance equals the remaining_balance of schedule entry
month - 1: the projector replays exactly the builder recurrence with the
same payment. -/
theorem C2_summary_schedule_agreement (A rate : ℚ) (n month : ℕ)
    (h1 : 1 ≤ month) (h2 : month ≤ n) :
    (summarize_schedule_for_month (build_amortization_schedule A rate n)
      month A rate).principal_balance =
    ((build_amortization_schedule A rate n).getD (month - 1)
      default).remaining_balance := by
  have hlen : (build_amortization_schedule A rate n).length = n :=
    build_schedule_length A rate n
  rw [summarize_eq, hlen]
  have hmin : min month n = month := min_eq_left h2
  rw [hmin, build_schedule_getD A rate n (month - 1) (by omega)]
  have hsz : month - 1 + 1 = month := by omega
  rw [hsz]

/-- C2 witness: terms 1000.00 at 0 percent for 10 months, summary at
month 5. -/
theorem C2_witness :
    (1:ℕ) ≤ 5 ∧ (5:ℕ) ≤ 10 ∧
    (summarize_schedule_for_month (build_amortization_schedule 1000 0 10)
      5 1000 0).principal_balance =
    ((build_amortization_schedule 1000 0 10).getD (5 - 1)
      default).remaining_balance :=
  ⟨by norm_num, by norm_num,
    C2_summary_schedule_agreement 1000 0 10 5 (by norm_num) (by norm_num)⟩

/-- C3: for a positive rate the computed payment is the rounded standard
annuity formula; the rounding lands on the cent grid, is within half a
cent of the exact value, and a tie rounds upward (round half up).  The
28-digit decimal intermediate arithmetic of the source is modelled as
exact rational arithmetic. -/
theorem C3_payment_formula (A rate : ℚ) (n : ℕ) (r q : ℚ)
    (hr : r = rate / 100 / 12)
    (hq : q = A * r * (1 + r) ^ n / ((1 + r) ^ n - 1))
    (hrate : 0 < rate) (hn : 1 ≤ n) (hA : 0 ≤ A) :
    compute_monthly_payment A rate n = to_money q ∧
    (∃ m : ℤ, compute_monthly_payment A rate n = (m : ℚ) / 100) ∧
    |compute_monthly_payment A rate n - q| ≤ 1 / 200 ∧
    (|compute_monthly_payment A rate n - q| = 1 / 200 →
      q < compute_monthly_payment A rate n) := by
  have hrpos : 0 < r := by rw [hr]; positivity
  have heq : compute_monthly_payment A rate n = to_money q := by
    simp only [compute_monthly_payment, ← hr]
    rw [if_neg (ne_of_gt hrpos), ← hq]
  have h1r : (1:ℚ) < 1 + r := by linarith
  have hpow : (1:ℚ) < (1 + r) ^ n := one_lt_pow₀ h1r (by omega)
  have hq0 : 0 ≤ q := by
    rw [hq]
    apply div_nonneg
    · positivity
    · linarith
  have hc1 : ((⌊100 * q + 1/2⌋ : ℤ) : ℚ) ≤ 100 * q + 1/2 := Int.floor_le _
  have hc2 : 100 * q + 1/2 < (⌊100 * q + 1/2⌋ : ℤ) + 1 :=
    Int.lt_floor_add_one _
  have hval : to_money q = ((⌊100 * q + 1/2⌋ : ℤ) : ℚ) / 100 :=
    to_money_of_nonneg q hq0
  refine ⟨heq, ⟨⌊100 * q + 1/2⌋, by rw [heq, hval]⟩, ?_, ?_⟩
  · rw [heq, hval, abs_le]
    constructor <;> linarith
  · intro habs
    rw [heq, hval] at habs ⊢
    rcases (abs_eq (by norm_num : (0:ℚ) ≤ 1/200)).mp habs with h | h
    · linarith
    · linarith

/-- C3 witness: principal 1200.00 at 12 percent for 12 months, the rate
12 giving the monthly rate 1/100. -/
theorem C3_witness :
    compute_monthly_payment 1200 12 12 =
      to_money (1200 * (1/100) * (1 + 1/100) ^ 12 /
        ((1 + 1/100) ^ 12 - 1)) ∧
    (∃ m : ℤ, compute_monthly_payment 1200 12 12 = (m : ℚ) / 100) ∧
    |compute_monthly_payment 1200 12 12 - 1200 * (1/100) * (1 + 1/100) ^ 12 /
        ((1 + 1/100) ^ 12 - 1)| ≤ 1 / 200 ∧
    (|compute_monthly_payment 1200 12 12 - 1200 * (1/100) * (1 + 1/100) ^ 12 /
        ((1 + 1/100) ^ 12 - 1)| = 1 / 200 →
      1200 * (1/100) * (1 + 1/100) ^ 12 / ((1 + 1/100) ^ 12 - 1) <
        compute_monthly_payment 1200 12 12) :=
  C3_payment_formula 1200 12 12 (1/100)
    (1200 * (1/100) * (1 + 1/100) ^ 12 / ((1 + 1/100) ^ 12 - 1))
    (by norm_num) rfl (by norm_num) (by norm_num) (by norm_num)

/-- C4 counterexample: for principal 1.00, rate 0, term 3 the code gives
remaining balance 0.34 after month 2 while the claimed formula
round(principal * (term - k) / term) gives 0.33, and the final balance is
0.01, not 0.00. -/
theorem C4_counterexample :
    ((build_amortization_schedule 1 0 3).getD 1 default).remaining_balance ≠
      to_money (1 * ((3:ℚ) - 2) / 3) ∧
    ((build_amortization_schedule 1 0 3).getD 2 default).remaining_balance ≠
      0 := by
  constructor <;>
    norm_num [build_amortization_schedule, buildGo, nextRemaining,
      compute_monthly_payment, to_money]

/-- C4 (amended): at rate zero the payment is round_to_money(principal /
term), and the remaining balance after month k+1 is
max(principal - (k+1) * payment, 0); the final balance is 0.00 only when
term * payment covers the principal. -/
theorem C4_amended_zero_rate (A : ℚ) (a : ℤ) (n k : ℕ)
    (hAa : A = (a : ℚ) / 100) (ha : 0 ≤ a) (hn : 1 ≤ n) (hk : k < n) :
    compute_monthly_payment A 0 n = to_money (A / n) ∧
    ((build_amortization_schedule A 0 n).getD k default).remaining_balance =
      max (A - ((k + 1 : ℕ) : ℚ) * compute_monthly_payment A 0 n) 0 := by
  have hA : 0 ≤ A := by rw [hAa]; positivity
  refine ⟨payment_zero_rate A n, ?_⟩
  have hp0 : 0 ≤ compute_monthly_payment A 0 n := by
    rw [payment_zero_rate]
    exact to_money_nonneg _ (by positivity)
  rw [build_schedule_getD A 0 n k hk]
  show to_money (max (remSeq ((0:ℚ) / 100 / 12)
    (compute_monthly_payment A 0 n) A (k + 1)) 0) = _
  have h0 : (0:ℚ) / 100 / 12 = 0 := by norm_num
  rw [h0, remSeq_zero_rate _ A hp0 hA (k + 1), max_assoc, max_self]
  obtain ⟨b, hb⟩ := to_money_grid (A / n)
  have hpb : compute_monthly_payment A 0 n = (b : ℚ) / 100 := by
    rw [payment_zero_rate]; exact hb
  rcases le_or_lt (A - ((k + 1 : ℕ) : ℚ) * compute_monthly_payment A 0 n) 0
    with h | h
  · rw [max_eq_right h, to_money_zero]
  · rw [max_eq_left h.le]
    apply to_money_eq_self _ h.le (a - (k + 1 : ℕ) * b)
    rw [hpb, hAa]
    push_cast
    ring

/-- C4 witness: principal 1.00 (100 cents), term 3, row k = 1. -/
theorem C4_witness :
    (1:ℚ) = ((100 : ℤ) : ℚ) / 100 ∧ (0:ℤ) ≤ 100 ∧ (1:ℕ) ≤ 3 ∧ (1:ℕ) < 3 ∧
    compute_monthly_payment 1 0 3 = to_money (1 / (3:ℕ)) ∧
    ((build_amortization_schedule 1 0 3).getD 1 default).remaining_balance =
      max (1 - ((1 + 1 : ℕ) : ℚ) * compute_monthly_payment 1 0 3) 0 := by
  have h := C4_amended_zero_rate 1 100 3 1 (by norm_num) (by norm_num)
    (by norm_num) (by norm_num)
  exact ⟨by norm_num, by norm_num, by norm_num, by norm_num, h.1, h.2⟩

/-- C5 counterexample: for the valid terms principal 0.01, rate 1560
percent, term 3, the rounded payment 0.01 is below the first month
interest 0.013, so the emitted balances increase: 0.01 at month 1 and
0.02 at month 2. -/
theorem C5_counterexample :
    ((build_amortization_schedule (1/100) 1560 3).getD 0
      default).remaining_balance <
    ((build_amortization_schedule (1/100) 1560 3).getD 1
      default).remaining_balance := by
  norm_num [build_amortization_schedule, buildGo, nextRemaining,
    compute_monthly_payment, to_money]

/-- C5 (amended): the emitted remaining balances are non-increasing
provided the rounded payment is at least the first month interest,
principal times the monthly rate; a payment rounded below that interest
makes the balance grow instead. -/
theorem C5_amended_monotonic_balance (A rate : ℚ) (n i j : ℕ)
    (hA : 0 ≤ A) (hrate : 0 ≤ rate)
    (hpay : A * (rate / 100 / 12) ≤ compute_monthly_payment A rate n)
    (hij : i < j) (hj : j < n) :
    ((build_amortization_schedule A rate n).getD j
      default).remaining_balance ≤
    ((build_amortization_schedule A rate n).getD i
      default).remaining_balance := by
  have hi : i < n := lt_trans hij hj
  rw [build_schedule_getD A rate n i hi, build_schedule_getD A rate n j hj]
  have hr : 0 ≤ rate / 100 / 12 := by positivity
  have hmono := remSeq_antitone (rate / 100 / 12)
    (compute_monthly_payment A rate n) A hr hA hpay
    (show i + 1 ≤ j + 1 by omega)
  exact to_money_mono _ _ (le_max_right _ _) (max_le_max hmono le_rfl)

/-- C5 witness: principal 1000.00 at 0 percent for 10 months, rows 2
and 5. -/
theorem C5_witness :
    (0:ℚ) ≤ 1000 ∧ (0:ℚ) ≤ 0 ∧
    1000 * ((0:ℚ) / 100 / 12) ≤ compute_monthly_payment 1000 0 10 ∧
    (2:ℕ) < 5 ∧ (5:ℕ) < 10 ∧
    ((build_amortization_schedule 1000 0 10).getD 5
      default).remaining_balance ≤
    ((build_amortization_schedule 1000 0 10).getD 2
      default).remaining_balance := by
  have hpay : 1000 * ((0:ℚ) / 100 / 12) ≤
      compute_monthly_payment 1000 0 10 := by
    norm_num [compute_monthly_payment, to_money]
  exact ⟨by norm_num, le_rfl, hpay, by norm_num, by norm_num,
    C5_amended_monotonic_balance 1000 0 10 2 5 (by norm_num) le_rfl hpay
      (by norm_num) (by norm_num)⟩

/-- C6 counterexample: for principal 0.01 at 1560 percent over 3 months,
total_principal_paid decreases from 0.00 at month 1 to -0.01 at month 2,
so the claimed joint monotonicity fails. -/
theorem C6_counterexample :
    (summarize_schedule_for_month
      (build_amortization_schedule (1/100) 1560 3) 2 (1/100)
      1560).total_principal_paid <
    (summarize_schedule_for_month
      (build_amortization_schedule (1/100) 1560 3) 1 (1/100)
      1560).total_principal_paid := by
  norm_num [build_amortization_schedule, buildGo, nextRemaining,
    compute_monthly_payment, to_money, summarize_schedule_for_month,
    summarizeGo, List.take]

/-- C6 (amended): total_interest_paid is always non-decreasing in the
month; total_principal_paid is non-decreasing provided the rounded
payment is at least the first month interest (otherwise principal
components go negative and the cumulative sum decreases). -/
theorem C6_amended_cumulative_monotonicity (A rate : ℚ) (n m1 m2 : ℕ)
    (hA : 0 ≤ A) (hrate : 0 ≤ rate) (hm : m1 ≤ m2) :
    (summarize_schedule_for_month (build_amortization_schedule A rate n)
      m1 A rate).total_interest_paid ≤
    (summarize_schedule_for_month (build_amortization_schedule A rate n)
      m2 A rate).total_interest_paid ∧
    (A * (rate / 100 / 12) ≤ compute_monthly_payment A rate n →
      (summarize_schedule_for_month (build_amortization_schedule A rate n)
        m1 A rate).total_principal_paid ≤
      (summarize_schedule_for_month (build_amortization_schedule A rate n)
        m2 A rate).total_principal_paid) := by
  have hlen : (build_amortization_schedule A rate n).length = n :=
    build_schedule_length A rate n
  rw [summarize_eq, summarize_eq, hlen]
  have hr : 0 ≤ rate / 100 / 12 := by positivity
  have hminle : min m1 n ≤ min m2 n := by omega
  constructor
  · exact to_money_mono _ _
      (tiSeq_nonneg _ _ hr _ A hA)
      (tiSeq_mono _ _ hr A hA hminle)
  · intro hpay
    have hle1 := remSeq_le_init (rate / 100 / 12)
      (compute_monthly_payment A rate n) A hr hA hpay (min m1 n)
    have hle2 := remSeq_antitone (rate / 100 / 12)
      (compute_monthly_payment A rate n) A hr hA hpay hminle
    exact to_money_mono _ _ (by linarith) (by linarith)

/-- C6 witness: principal 1000.00 at 0 percent for 10 months, months 3
and 7. -/
theorem C6_witness :
    (0:ℚ) ≤ 1000 ∧ (3:ℕ) ≤ 7 ∧
    (summarize_schedule_for_month (build_amortization_schedule 1000 0 10)
      3 1000 0).total_interest_paid ≤
    (summarize_schedule_for_month (build_amortization_schedule 1000 0 10)
      7 1000 0).total_interest_paid ∧
    (summarize_schedule_for_month (build_amortization_schedule 1000 0 10)
      3 1000 0).total_principal_paid ≤
    (summarize_schedule_for_month (build_amortization_schedule 1000 0 10)
      7 1000 0).total_principal_paid := by
  have h := C6_amended_cumulative_monotonicity 1000 0 10 3 7 (by norm_num)
    le_rfl (by norm_num)
  exact ⟨by norm_num, by norm_num, h.1,
    h.2 (by norm_num [compute_monthly_payment, to_money])⟩

/-- C7 counterexample: for principal 1.00, rate 0, term 3, the summary at
month 3 has principal_balance 0.01, not 0.00 (the rounded payment 0.33
underpays). -/
theorem C7_counterexample :
    (summarize_schedule_for_month (build_amortization_schedule 1 0 3) 3 1
      0).principal_balance ≠ 0 := by
  norm_num [build_amortization_schedule, buildGo, nextRemaining,
    compute_monthly_payment, to_money, summarize_schedule_for_month,
    summarizeGo, List.take]

/-- C7 (amended): at month = term_months the summary has
principal_balance 0.00 and total_principal_paid exactly the principal,
provided the rounded payment is at least the exact payment value. -/
theorem C7_amended_terminal_summary (A rate : ℚ) (a : ℤ) (n : ℕ)
    (hAa : A = (a : ℚ) / 100) (ha : 0 ≤ a) (hrate : 0 ≤ rate) (hn : 1 ≤ n)
    (hpay : exactPayment A (rate / 100 / 12) n ≤
      compute_monthly_payment A rate n) :
    (summarize_schedule_for_month (build_amortization_schedule A rate n)
      n A rate).principal_balance = 0 ∧
    (summarize_schedule_for_month (build_amortization_schedule A rate n)
      n A rate).total_principal_paid = A := by
  have hA : 0 ≤ A := by rw [hAa]; positivity
  have hlen : (build_amortization_schedule A rate n).length = n :=
    build_schedule_length A rate n
  rw [summarize_eq, hlen, min_self,
    remSeq_terminal_zero A rate n hA hrate hn hpay]
  constructor
  · show to_money (max 0 0) = 0
    rw [max_self]
    exact to_money_zero
  · show to_money (A - 0) = A
    rw [sub_zero]
    exact to_money_eq_self A hA a hAa

/-- C7 witness: principal 100.00 (10000 cents), rate 0, term 4. -/
theorem C7_witness :
    (100:ℚ) = ((10000 : ℤ) : ℚ) / 100 ∧ (0:ℤ) ≤ 10000 ∧ (0:ℚ) ≤ 0 ∧
    (1:ℕ) ≤ 4 ∧
    exactPayment 100 ((0:ℚ) / 100 / 12) 4 ≤
      compute_monthly_payment 100 0 4 ∧
    (summarize_schedule_for_month (build_amortization_schedule 100 0 4) 4
      100 0).principal_balance = 0 ∧
    (summarize_schedule_for_month (build_amortization_schedule 100 0 4) 4
      100 0).total_principal_paid = 100 := by
  have hpay : exactPayment 100 ((0:ℚ) / 100 / 12) 4 ≤
      compute_monthly_payment 100 0 4 := by
    norm_num [exactPayment, geomSum_zero_rate, compute_monthly_payment,
      to_money]
  have h := C7_amended_terminal_summary 100 0 10000 4 (by norm_num)
    (by norm_num) le_rfl (by norm_num) hpay
  exact ⟨by norm_num, by norm_num, le_rfl, by norm_num, hpay, h.1, h.2⟩

/-- C8: when the loan exists and the caller has access but the requested
month exceeds term_months, get_summary answers the 400 client error
"Month exceeds loan term" without consulting the engine result; the
engine itself accepts any month and just echoes it in the summary. -/
theorem C8_month_bound_rejected (db : LoanRoutes.Db) (loan_id month : ℕ)
    (u : LoanRoutes.User) (loan : LoanRoutes.Loan)
    (hfind : db.loans.find? (fun l => l.id == loan_id) = some loan)
    (hacc : LoanRoutes.assert_can_access_loan loan u db = .ok ())
    (hmonth : loan.term_months < month) :
    LoanRoutes.get_summary loan_id month u db =
      .error ⟨400, "Month exceeds loan term"⟩ ∧
    ∀ (sched : List LoanScheduleItem) (m : ℕ) (A rate : ℚ),
      (summarize_schedule_for_month sched m A rate).month = m := by
  constructor
  · simp [LoanRoutes.get_summary, hfind, hacc, hmonth]
  · intro sched m A rate
    rfl

/-- C8 witness: a one-loan database, requesting month 25 of a 24-month
loan as its owner. -/
theorem C8_witness :
    c8Db.loans.find? (fun l => l.id == 1) = some c8Loan ∧
    LoanRoutes.assert_can_access_loan c8Loan c8User c8Db = .ok () ∧
    c8Loan.term_months < 25 ∧
    LoanRoutes.get_summary 1 25 c8User c8Db =
      .error ⟨400, "Month exceeds loan term"⟩ := by
  have hfind : c8Db.loans.find? (fun l => l.id == 1) = some c8Loan := rfl
  have hacc : LoanRoutes.assert_can_access_loan c8Loan c8User c8Db =
      .ok () := rfl
  have hmonth : c8Loan.term_months < 25 := by norm_num [c8Loan]
  exact ⟨hfind, hacc, hmonth,
    (C8_month_bound_rejected c8Db 1 25 c8User c8Loan hfind hacc hmonth).1⟩

/-- C9 counterexample: the projector is not total for every month >= 0.
On an empty schedule (month 1 > 0 = len) the payment computation divides
by zero, and at month 0 on a nonempty schedule pydantic rejects the
constructed summary, so both calls raise instead of returning. -/
theorem C9_counterexample :
    summarize_schedule_for_month_checked [] 1 1 0 =
      .error .divisionByZero ∧
    summarize_schedule_for_month_checked
      [{ month := 1, remaining_balance := 0, monthly_payment := 0 }] 0 1 0 =
      .error .validationError :=
  ⟨rfl, rfl⟩

/-- C9 (amended): on a nonempty schedule and a month of at least 1 the
projector raises no error; when the month is at least the schedule
length the slice truncates, so the money fields agree with the summary
at month = length(schedule) while the month field echoes the request. -/
theorem C9_amended_truncation (sched : List LoanScheduleItem)
    (month : ℕ) (A rate : ℚ) (hne : 1 ≤ sched.length)
    (h : sched.length ≤ month) :
    summarize_schedule_for_month_checked sched month A rate =
      .ok (summarize_schedule_for_month sched month A rate) ∧
    (summarize_schedule_for_month sched month A rate).month = month ∧
    (summarize_schedule_for_month sched month A rate).principal_balance =
      (summarize_schedule_for_month sched sched.length A
        rate).principal_balance ∧
    (summarize_schedule_for_month sched month A rate).total_principal_paid =
      (summarize_schedule_for_month sched sched.length A
        rate).total_principal_paid ∧
    (summarize_schedule_for_month sched month A rate).total_interest_paid =
      (summarize_schedule_for_month sched sched.length A
        rate).total_interest_paid := by
  have h0 : ¬ sched.length = 0 := by omega
  have hm0 : ¬ month = 0 := by omega
  constructor
  · simp [summarize_schedule_for_month_checked, h0, hm0]
  · rw [summarize_eq, summarize_eq]
    have h1 : min month sched.length = sched.length := min_eq_right h
    have h2 : min sched.length sched.length = sched.length := min_self _
    rw [h1, h2]
    exact ⟨rfl, rfl, rfl, rfl⟩

/-- C9 witness: a 10-entry schedule summarized at month 15. -/
theorem C9_witness :
    1 ≤ (build_amortization_schedule 1000 0 10).length ∧
    (build_amortization_schedule 1000 0 10).length ≤ 15 ∧
    summarize_schedule_for_month_checked
      (build_amortization_schedule 1000 0 10) 15 1000 0 =
      .ok (summarize_schedule_for_month
        (build_amortization_schedule 1000 0 10) 15 1000 0) ∧
    (summarize_schedule_for_month (build_amortization_schedule 1000 0 10)
      15 1000 0).month = 15 ∧
    (summarize_schedule_for_month (build_amortization_schedule 1000 0 10)
      15 1000 0).principal_balance =
      (summarize_schedule_for_month (build_amortization_schedule 1000 0 10)
        (build_amortization_schedule 1000 0 10).length 1000
        0).principal_balance := by
  have h1 : 1 ≤ (build_amortization_schedule 1000 0 10).length := by
    rw [build_schedule_length]
    norm_num
  have h2 : (build_amortization_schedule 1000 0 10).length ≤ 15 := by
    rw [build_schedule_length]
    norm_num
  have h := C9_amended_truncation
    (build_amortization_schedule 1000 0 10) 15 1000 0 h1 h2
  exact ⟨h1, h2, h.1, h.2.1, h.2.2.1⟩

/-- C10: when a share row for the loan and target user already exists,
share_loan succeeds without adding a row, and a repeated identical call
leaves the share table exactly as one call does. -/
theorem C10_share_idempotent (db : LoanRoutes.Db) (loan_id : ℕ)
    (email : String) (u : LoanRoutes.User) (loan : LoanRoutes.Loan)
    (target : LoanRoutes.User)
    (hl : db.loans.find? (fun l => l.id == loan_id) = some loan)
    (ho : loan.owner_id = u.id)
    (hu : db.users.find? (fun x => x.email == email) = some target)
    (hne : target.id ≠ u.id)
    (hex : (loan.id, target.id) ∈ db.shares) :
    LoanRoutes.share_loan loan_id email u db = (Except.ok (), db.shares) ∧
    (LoanRoutes.share_loan loan_id email u
        { db with shares := (LoanRoutes.share_loan loan_id email u db).2 }).2 =
      (LoanRoutes.share_loan loan_id email u db).2 := by
  have hsome : (db.shares.find?
      (fun s => s.1 == loan.id && s.2 == target.id)).isSome := by
    rw [List.find?_isSome]
    exact ⟨(loan.id, target.id), hex, by simp⟩
  obtain ⟨x, hx⟩ := Option.isSome_iff_exists.mp hsome
  constructor
  · simp [LoanRoutes.share_loan, hl, ho, hu, hne, hx]
  · rw [LoanRoutes.share_loan_idem]

/-- C10 witness: the sample database in which loan 1 is already shared
with user 2, shared again by the owner. -/
theorem C10_witness :
    c10Db.loans.find? (fun l => l.id == 1) = some c8Loan ∧
    c8Loan.owner_id = c8User.id ∧
    c10Db.users.find? (fun x => x.email == "friend@example.com") =
      some c10Friend ∧
    c10Friend.id ≠ c8User.id ∧
    (c8Loan.id, c10Friend.id) ∈ c10Db.shares ∧
    LoanRoutes.share_loan 1 "friend@example.com" c8User c10Db =
      (Except.ok (), c10Db.shares) := by
  have hl : c10Db.loans.find? (fun l => l.id == 1) = some c8Loan := rfl
  have ho : c8Loan.owner_id = c8User.id := rfl
  have hu : c10Db.users.find? (fun x => x.email == "friend@example.com") =
      some c10Friend := rfl
  have hne : c10Friend.id ≠ c8User.id := by
    norm_num [c10Friend, c8User]
  have hex : (c8Loan.id, c10Friend.id) ∈ c10Db.shares := by
    simp [c8Loan, c10Friend, c10Db]
  exact ⟨hl, ho, hu, hne, hex,
    (C10_share_idempotent c10Db 1 "friend@example.com" c8User c8Loan
      c10Friend hl ho hu hne hex).1⟩

end Claims
